import Mathlib

/-!
Verification of the translation subsystem of the `statementdb` application
(`statementdb/models.py` and `statementdb/admin.py`).

The translation store is embedded shallowly: the two physical representation
tables (`ShortTranslation`, `LongTranslation`) become two lists of rows inside
a `Store` value, and the Django queryset operations used by the source
(`filter`, `exists`, `update`, `delete`, `save`) become the corresponding list
operations (filtering, emptiness test, mapping an update over the matching
rows, removing the matching rows, appending a row).  Surrogate primary keys of
`Translatable` are modelled by a `nextId` allocator in the store.
-/

namespace StatementDb

/-- Languages supported for translations, as the pairs (code, display name)
from `LANGUAGES` in `models.py`. -/
def LANGUAGES : List (String × String) := [("de_de", "German"), ("en_US", "English")]

/-- The desired display language, `LOCALE` in `models.py`. -/
def LOCALE : String := "de_de"

/-- The size of the language codes in use (`LANG_CODE_LEN`). -/
def LANG_CODE_LEN : Nat := 5

/-- The size where a string should be truncated (`TRUNCATE_AT_LENGTH`). -/
def TRUNCATE_AT_LENGTH : Nat := 60

/-- A language code is supported when it appears among the codes of
`LANGUAGES`. -/
def supported (language : String) : Prop := language ∈ LANGUAGES.map Prod.fst

instance : DecidablePred supported := fun language =>
  inferInstanceAs (Decidable (language ∈ LANGUAGES.map Prod.fst))

/-- Python slicing `s[:n]` on a string (by code points). -/
def pyTake (s : String) (n : Nat) : String := String.mk (s.data.take n)

/-- `truncate(s, length)` from `models.py`:
`(s[:length] + dotdot) if len(s) > length else s`. -/
def truncate (s : String) (length : Nat) : String :=
  if s.length > length then pyTake s length ++ ".." else s

/-- The maximum length of short translations, `ShortTranslation.MAX_LENGTH`. -/
def ShortTranslation.MAX_LENGTH : Nat := 100

/-- One stored translation row: the owning translatable's key, the language
code, and the text.  Both representation tables have exactly these logical
columns. -/
structure Row where
  translatable : Nat
  language : String
  translation : String
deriving Repr, DecidableEq

/-- The relational store backing the translation subsystem: the rows of the
`ShortTranslation` table, the rows of the `LongTranslation` table, and the
surrogate-key allocator for `Translatable`. -/
structure Store where
  nextId : Nat
  shortRows : List Row
  longRows : List Row
deriving Repr, DecidableEq

/-- The store with no translatables and no translations. -/
def emptyStore : Store := { nextId := 0, shortRows := [], longRows := [] }

/-- The queryset predicate `filter(translatable=t, language=lang)`. -/
def rowMatch (t : Nat) (lang : String) (r : Row) : Bool :=
  r.translatable == t && r.language == lang

/-- The effect of `queryset.update(translation=text)` on one row: rows
matching the filter get the new text, others are untouched. -/
def updRow (t : Nat) (lang text : String) (r : Row) : Row :=
  if rowMatch t lang r then { r with translation := text } else r

/-- `Translatable.with_translation(language, translation)` from `models.py`:
saves a fresh `Translatable`, then saves one translation row for it, short or
long depending on `len(translation) <= ShortTranslation.MAX_LENGTH`.  Returns
the updated store and the new translatable's key. -/
def Translatable.with_translation (s : Store) (language translation : String) :
    Store × Nat :=
  let id := s.nextId
  let row : Row := { translatable := id, language := language, translation := translation }
  if translation.length ≤ ShortTranslation.MAX_LENGTH then
    ({ s with nextId := id + 1, shortRows := s.shortRows ++ [row] }, id)
  else
    ({ s with nextId := id + 1, longRows := s.longRows ++ [row] }, id)

/-- Creating a `Translatable()` and saving it without any translation
(the deferred-population lifecycle): only a fresh key is allocated. -/
def Translatable.create_empty (s : Store) : Store × Nat :=
  ({ s with nextId := s.nextId + 1 }, s.nextId)

/-- `Translatable.set_translation(language, translation)` from `models.py`.
If the text fits the short representation: update the existing short row in
place if one exists, otherwise delete any matching long row and insert a new
short row.  Symmetrically for the long representation. -/
def Translatable.set_translation (s : Store) (self : Nat)
    (language translation : String) : Store :=
  if translation.length ≤ ShortTranslation.MAX_LENGTH then
    if s.shortRows.any (rowMatch self language) then
      { s with shortRows := s.shortRows.map (updRow self language translation) }
    else
      { s with
        longRows := s.longRows.filter (fun r => !(rowMatch self language r)),
        shortRows := s.shortRows ++
          [{ translatable := self, language := language, translation := translation }] }
  else
    if s.longRows.any (rowMatch self language) then
      { s with longRows := s.longRows.map (updRow self language translation) }
    else
      { s with
        shortRows := s.shortRows.filter (fun r => !(rowMatch self language r)),
        longRows := s.longRows ++
          [{ translatable := self, language := language, translation := translation }] }

/-- All translation rows visible through the abstract `Translation` model:
`Translation.objects` spans both representation tables. -/
def allRows (s : Store) : List Row := s.shortRows ++ s.longRows

/-- The read entry point `get_translation(translatable_id, language)`: the
body of `Translation.get` in `models.py` with the language generalised from
the fixed `LOCALE` to a parameter, exactly as the queryset
`Translation.objects.filter(translatable=f, language=...)` followed by
`r.first().translation if r.exists() else None`. -/
def Translation.get_translation (s : Store) (f : Nat) (language : String) :
    Option String :=
  ((allRows s).filter (rowMatch f language)).head?.map Row.translation

/-- `Translation.get(f)` from `models.py`: the preferred-language lookup,
filtering by `language=LOCALE`. -/
def Translation.get (s : Store) (f : Nat) : Option String :=
  Translation.get_translation s f LOCALE

/-- `Translatable.__str__` from `models.py`:
`truncate(translation, TRUNCATE_AT_LENGTH) if translation else
the unused sentinel`.  Python truthiness makes both `None` and the empty
string fall into the sentinel branch. -/
def Translatable.str (s : Store) (self : Nat) : String :=
  match Translation.get s self with
  | none => "Unused translatable."
  | some translation =>
      if translation = "" then "Unused translatable."
      else truncate translation TRUNCATE_AT_LENGTH

/-- At most one stored representation row per (translatable, language) pair:
the one-row invariant of the spec. -/
def oneRow (s : Store) : Prop :=
  ∀ (t : Nat) (lang : String), ((allRows s).filter (rowMatch t lang)).length ≤ 1

/-- Model well-formedness: every stored row references a key that the
allocator has already handed out.  In the source this is the foreign-key
constraint from the translation tables to `Translatable` together with the
database assigning fresh surrogate keys. -/
def idsFresh (s : Store) : Prop :=
  ∀ r ∈ allRows s, r.translatable < s.nextId

/-- The operations a caller can perform on the translation store. -/
inductive Op where
  | create_with (language text : String)
  | create_empty
  | set (t : Nat) (language text : String)
deriving Repr, DecidableEq

/-- Applying one operation to the store. -/
def applyOp (s : Store) : Op → Store
  | Op.create_with language text => (Translatable.with_translation s language text).1
  | Op.create_empty => (Translatable.create_empty s).1
  | Op.set t language text => Translatable.set_translation s t language text

/-- Running a sequence of operations. -/
def run (s : Store) (ops : List Op) : Store := ops.foldl applyOp s

/-- An operation is valid in a store when any `set_translation` call targets
an existing translatable — in the source, `set_translation` is an instance
method, so its receiver is a saved `Translatable`. -/
def opValid (s : Store) : Op → Bool
  | Op.set t _ _ => t < s.nextId
  | _ => true

/-- Validity of a whole call sequence, checked state by state. -/
def validRun (s : Store) : List Op → Bool
  | [] => true
  | op :: ops => opValid s op && validRun (applyOp s op) ops

/-- The fields of `StatementAdminForm` in `admin.py`: the declared
`orig_content` field plus the editable `Statement` model fields, with
`content` excluded by `Meta.exclude`. -/
def statementFormFields : List String :=
  ["orig_content", "player", "language", "date", "time", "location",
   "context", "publications", "references"]

/-- What `StatementAdmin.save_model` does about the translation store. -/
inductive SaveAction where
  | createWith (language text : String)
  | setTranslation (language text : String)
  | noCall
deriving Repr, DecidableEq

/-- `StatementAdmin.save_model` from `admin.py`, restricted to its effect on
the translation store: on creation (`not change`) it calls
`Translatable.with_translation(language, orig_content)`; on a change it calls
`set_translation` only when the string `content` occurs in
`form.changed_data`; otherwise it performs no translation call. -/
def save_model (change : Bool) (changed_data : List String)
    (language orig_content : String) : SaveAction :=
  if !change then SaveAction.createWith language orig_content
  else if changed_data.contains "content" then
    SaveAction.setTranslation language orig_content
  else SaveAction.noCall

/-! ### Basic facts about `rowMatch`, `updRow` and queryset filtering -/

theorem rowMatch_iff {t : Nat} {lang : String} {r : Row} :
    rowMatch t lang r = true ↔ r.translatable = t ∧ r.language = lang := by
  simp [rowMatch]

theorem rowMatch_updRow (t' : Nat) (lang' : String) (t : Nat) (lang text : String)
    (r : Row) : rowMatch t' lang' (updRow t lang text r) = rowMatch t' lang' r := by
  unfold updRow
  split <;> simp [rowMatch]

theorem updRow_translatable (t : Nat) (lang text : String) (r : Row) :
    (updRow t lang text r).translatable = r.translatable := by
  unfold updRow
  split <;> rfl

theorem updRow_of_rowMatch {t : Nat} {lang text : String} {r : Row}
    (h : rowMatch t lang r = true) :
    updRow t lang text r = { translatable := t, language := lang, translation := text } := by
  obtain ⟨h1, h2⟩ := rowMatch_iff.mp h
  simp [updRow, h, h1, h2]

theorem rowMatch_self (t : Nat) (lang text : String) :
    rowMatch t lang { translatable := t, language := lang, translation := text } = true := by
  simp [rowMatch]

theorem filter_map_upd_self (l : List Row) (t : Nat) (lang text : String) :
    (l.map (updRow t lang text)).filter (rowMatch t lang) =
      List.replicate (l.filter (rowMatch t lang)).length
        { translatable := t, language := lang, translation := text } := by
  induction l with
  | nil => rfl
  | cons hd tl ih =>
      by_cases h : rowMatch t lang hd = true
      · simp only [List.map_cons, List.filter_cons, rowMatch_updRow, h, if_pos,
          List.length_cons, List.replicate_succ]
        rw [updRow_of_rowMatch h, ih]
      · simp only [List.map_cons, List.filter_cons, rowMatch_updRow, h]
        simpa using ih

theorem length_filter_map_upd (l : List Row) (t : Nat) (lang text : String)
    (t' : Nat) (lang' : String) :
    ((l.map (updRow t lang text)).filter (rowMatch t' lang')).length =
      (l.filter (rowMatch t' lang')).length := by
  induction l with
  | nil => rfl
  | cons hd tl ih =>
      by_cases h : rowMatch t' lang' hd = true
      · simp [List.filter_cons, rowMatch_updRow, h, ih]
      · simp [List.filter_cons, rowMatch_updRow, h, ih]

theorem filter_del_self (l : List Row) (t : Nat) (lang : String) :
    (l.filter (fun r => !(rowMatch t lang r))).filter (rowMatch t lang) = [] := by
  rw [List.filter_eq_nil_iff]
  intro a ha
  simp only [List.mem_filter, Bool.not_eq_true'] at ha
  simp [ha.2]

theorem length_filter_del_le (l : List Row) (t : Nat) (lang : String)
    (t' : Nat) (lang' : String) :
    ((l.filter (fun r => !(rowMatch t lang r))).filter (rowMatch t' lang')).length ≤
      (l.filter (rowMatch t' lang')).length :=
  ((List.filter_sublist l).filter (rowMatch t' lang')).length_le

theorem filter_eq_nil_of_any_false {l : List Row} {t : Nat} {lang : String}
    (h : l.any (rowMatch t lang) = false) : l.filter (rowMatch t lang) = [] := by
  rw [List.filter_eq_nil_iff]
  intro a ha
  rw [List.any_eq_false] at h
  exact h a ha

theorem one_le_length_filter_of_any {l : List Row} {t : Nat} {lang : String}
    (h : l.any (rowMatch t lang) = true) : 1 ≤ (l.filter (rowMatch t lang)).length := by
  rw [List.any_eq_true] at h
  obtain ⟨a, ha, hm⟩ := h
  have : a ∈ l.filter (rowMatch t lang) := List.mem_filter.mpr ⟨ha, hm⟩
  exact List.length_pos.mpr (List.ne_nil_of_mem this)

theorem map_upd_of_any_false {l : List Row} {t : Nat} {lang : String} (text : String)
    (h : l.any (rowMatch t lang) = false) : l.map (updRow t lang text) = l := by
  rw [List.any_eq_false] at h
  induction l with
  | nil => rfl
  | cons hd tl ih =>
      have hhd : ¬ rowMatch t lang hd = true := h hd (List.mem_cons_self hd tl)
      simp only [List.map_cons]
      rw [ih fun a ha => h a (List.mem_cons_of_mem hd ha)]
      simp [updRow, hhd]

theorem any_map_upd (l : List Row) (t : Nat) (lang text : String)
    (t' : Nat) (lang' : String) :
    (l.map (updRow t lang text)).any (rowMatch t' lang') = l.any (rowMatch t' lang') := by
  rw [List.any_map]
  congr 1
  funext r
  exact rowMatch_updRow t' lang' t lang text r

/-! ### Characterisation of `set_translation` -/

theorem oneRow_iff {s : Store} :
    oneRow s ↔ ∀ (t : Nat) (lang : String),
      (s.shortRows.filter (rowMatch t lang)).length +
        (s.longRows.filter (rowMatch t lang)).length ≤ 1 := by
  unfold oneRow allRows
  simp [List.filter_append]

theorem set_translation_short_spec {s : Store} {t : Nat} {lang text : String}
    (hinv : oneRow s) (hlen : text.length ≤ ShortTranslation.MAX_LENGTH) :
    (Translatable.set_translation s t lang text).shortRows.filter (rowMatch t lang) =
      [{ translatable := t, language := lang, translation := text }] ∧
    (Translatable.set_translation s t lang text).longRows.filter (rowMatch t lang) = [] := by
  unfold Translatable.set_translation
  rw [if_pos hlen]
  by_cases hany : s.shortRows.any (rowMatch t lang) = true
  · rw [if_pos hany]
    have h1 : 1 ≤ (s.shortRows.filter (rowMatch t lang)).length :=
      one_le_length_filter_of_any hany
    have h2 := oneRow_iff.mp hinv t lang
    constructor
    · have hone : (s.shortRows.filter (rowMatch t lang)).length = 1 := by omega
      show (s.shortRows.map (updRow t lang text)).filter (rowMatch t lang) = _
      rw [filter_map_upd_self, hone]
      rfl
    · show s.longRows.filter (rowMatch t lang) = []
      have : (s.longRows.filter (rowMatch t lang)).length = 0 := by omega
      exact List.length_eq_zero.mp this
  · rw [if_neg hany]
    have hf : s.shortRows.any (rowMatch t lang) = false :=
      Bool.eq_false_iff.mpr hany
    constructor
    · show (s.shortRows ++ [_]).filter (rowMatch t lang) = _
      rw [List.filter_append, filter_eq_nil_of_any_false hf]
      simp [rowMatch_self]
    · exact filter_del_self s.longRows t lang

theorem set_translation_long_spec {s : Store} {t : Nat} {lang text : String}
    (hinv : oneRow s) (hlen : ShortTranslation.MAX_LENGTH < text.length) :
    (Translatable.set_translation s t lang text).longRows.filter (rowMatch t lang) =
      [{ translatable := t, language := lang, translation := text }] ∧
    (Translatable.set_translation s t lang text).shortRows.filter (rowMatch t lang) = [] := by
  unfold Translatable.set_translation
  rw [if_neg (not_le.mpr hlen)]
  by_cases hany : s.longRows.any (rowMatch t lang) = true
  · rw [if_pos hany]
    have h1 : 1 ≤ (s.longRows.filter (rowMatch t lang)).length :=
      one_le_length_filter_of_any hany
    have h2 := oneRow_iff.mp hinv t lang
    constructor
    · have hone : (s.longRows.filter (rowMatch t lang)).length = 1 := by omega
      show (s.longRows.map (updRow t lang text)).filter (rowMatch t lang) = _
      rw [filter_map_upd_self, hone]
      rfl
    · show s.shortRows.filter (rowMatch t lang) = []
      have : (s.shortRows.filter (rowMatch t lang)).length = 0 := by omega
      exact List.length_eq_zero.mp this
  · rw [if_neg hany]
    have hf : s.longRows.any (rowMatch t lang) = false :=
      Bool.eq_false_iff.mpr hany
    constructor
    · show (s.longRows ++ [_]).filter (rowMatch t lang) = _
      rw [List.filter_append, filter_eq_nil_of_any_false hf]
      simp [rowMatch_self]
    · exact filter_del_self s.shortRows t lang

theorem get_translation_set {s : Store} {t : Nat} {lang text : String}
    (hinv : oneRow s) :
    Translation.get_translation (Translatable.set_translation s t lang text) t lang =
      some text := by
  unfold Translation.get_translation allRows
  by_cases hlen : text.length ≤ ShortTranslation.MAX_LENGTH
  · obtain ⟨h1, h2⟩ := set_translation_short_spec hinv hlen
    rw [List.filter_append, h1, h2]
    rfl
  · obtain ⟨h1, h2⟩ := set_translation_long_spec hinv (not_le.mp hlen)
    rw [List.filter_append, h2, h1]
    rfl

/-! ### Preservation of the one-row invariant and of key freshness -/

theorem oneRow_set_translation {s : Store} (hinv : oneRow s)
    (t : Nat) (lang text : String) :
    oneRow (Translatable.set_translation s t lang text) := by
  rw [oneRow_iff] at hinv ⊢
  intro t' lang'
  by_cases hm : t' = t ∧ lang' = lang
  · obtain ⟨rfl, rfl⟩ := hm
    by_cases hlen : text.length ≤ ShortTranslation.MAX_LENGTH
    · obtain ⟨h1, h2⟩ := set_translation_short_spec (oneRow_iff.mpr hinv) hlen
      rw [h1, h2]
      simp
    · obtain ⟨h1, h2⟩ := set_translation_long_spec (oneRow_iff.mpr hinv) (not_le.mp hlen)
      rw [h1, h2]
      simp
  · have hrow : rowMatch t' lang'
        { translatable := t, language := lang, translation := text } = false := by
      by_contra hc
      have := rowMatch_iff.mp (by simpa using hc)
      simp only [] at this
      exact hm ⟨this.1.symm, this.2.symm⟩
    unfold Translatable.set_translation
    split
    · split
      · show ((s.shortRows.map (updRow t lang text)).filter (rowMatch t' lang')).length +
          (s.longRows.filter (rowMatch t' lang')).length ≤ 1
        rw [length_filter_map_upd]
        exact hinv t' lang'
      · show ((s.shortRows ++ [_]).filter (rowMatch t' lang')).length +
          ((s.longRows.filter (fun r => !(rowMatch t lang r))).filter
            (rowMatch t' lang')).length ≤ 1
        rw [List.filter_append, List.length_append]
        have hdel := length_filter_del_le s.longRows t lang t' lang'
        have hnew : (([{ translatable := t, language := lang, translation := text }] :
            List Row).filter (rowMatch t' lang')).length = 0 := by
          simp [hrow]
        have := hinv t' lang'
        omega
    · split
      · show (s.shortRows.filter (rowMatch t' lang')).length +
          ((s.longRows.map (updRow t lang text)).filter (rowMatch t' lang')).length ≤ 1
        rw [length_filter_map_upd]
        exact hinv t' lang'
      · show ((s.shortRows.filter (fun r => !(rowMatch t lang r))).filter
            (rowMatch t' lang')).length +
          ((s.longRows ++ [_]).filter (rowMatch t' lang')).length ≤ 1
        rw [List.filter_append, List.length_append]
        have hdel := length_filter_del_le s.shortRows t lang t' lang'
        have hnew : (([{ translatable := t, language := lang, translation := text }] :
            List Row).filter (rowMatch t' lang')).length = 0 := by
          simp [hrow]
        have := hinv t' lang'
        omega

theorem set_translation_nextId (s : Store) (t : Nat) (lang text : String) :
    (Translatable.set_translation s t lang text).nextId = s.nextId := by
  unfold Translatable.set_translation
  split <;> split <;> rfl

theorem with_translation_short_eq {s : Store} {lang text : String}
    (h : text.length ≤ ShortTranslation.MAX_LENGTH) :
    Translatable.with_translation s lang text =
      ({ nextId := s.nextId + 1,
         shortRows := s.shortRows ++
           [{ translatable := s.nextId, language := lang, translation := text }],
         longRows := s.longRows }, s.nextId) := by
  unfold Translatable.with_translation
  simp only [if_pos h]

theorem with_translation_long_eq {s : Store} {lang text : String}
    (h : ¬ text.length ≤ ShortTranslation.MAX_LENGTH) :
    Translatable.with_translation s lang text =
      ({ nextId := s.nextId + 1,
         shortRows := s.shortRows,
         longRows := s.longRows ++
           [{ translatable := s.nextId, language := lang, translation := text }] },
       s.nextId) := by
  unfold Translatable.with_translation
  simp only [if_neg h]

theorem translatable_of_mem_set {r : Row} {s : Store} {t : Nat} {lang text : String}
    (hr : r ∈ allRows (Translatable.set_translation s t lang text)) :
    r.translatable = t ∨ ∃ a ∈ allRows s, r.translatable = a.translatable := by
  unfold allRows Translatable.set_translation at hr
  split at hr <;> split at hr <;>
    simp only [List.mem_append, List.mem_map, List.mem_filter,
      List.mem_singleton] at hr
  · rcases hr with ⟨a, ha, rfl⟩ | hlong
    · exact Or.inr ⟨a, List.mem_append.mpr (Or.inl ha), updRow_translatable t lang text a⟩
    · exact Or.inr ⟨r, List.mem_append.mpr (Or.inr hlong), rfl⟩
  · rcases hr with (hshort | hnew) | hlong
    · exact Or.inr ⟨r, List.mem_append.mpr (Or.inl hshort), rfl⟩
    · subst hnew
      exact Or.inl rfl
    · exact Or.inr ⟨r, List.mem_append.mpr (Or.inr hlong.1), rfl⟩
  · rcases hr with hshort | ⟨a, ha, rfl⟩
    · exact Or.inr ⟨r, List.mem_append.mpr (Or.inl hshort), rfl⟩
    · exact Or.inr ⟨a, List.mem_append.mpr (Or.inr ha), updRow_translatable t lang text a⟩
  · rcases hr with hshort | hlong | hnew
    · exact Or.inr ⟨r, List.mem_append.mpr (Or.inl hshort.1), rfl⟩
    · exact Or.inr ⟨r, List.mem_append.mpr (Or.inr hlong), rfl⟩
    · subst hnew
      exact Or.inl rfl

theorem idsFresh_set_translation {s : Store} {t : Nat} (hfresh : idsFresh s)
    (ht : t < s.nextId) (lang text : String) :
    idsFresh (Translatable.set_translation s t lang text) := by
  intro r hr
  rw [set_translation_nextId]
  rcases translatable_of_mem_set hr with heq | ⟨a, ha, heq⟩
  · rw [heq]
    exact ht
  · rw [heq]
    exact hfresh a ha

theorem filter_eq_nil_of_idsFresh {s : Store} (hfresh : idsFresh s)
    {l : List Row} (hl : ∀ r ∈ l, r ∈ allRows s) (lang : String) :
    l.filter (rowMatch s.nextId lang) = [] := by
  rw [List.filter_eq_nil_iff]
  intro a ha hmatch
  have h1 := (rowMatch_iff.mp hmatch).1
  have h2 := hfresh a (hl a ha)
  omega

theorem oneRow_with_translation {s : Store} (hinv : oneRow s) (hfresh : idsFresh s)
    (lang text : String) :
    oneRow (Translatable.with_translation s lang text).1 := by
  have hshort : s.shortRows.filter (rowMatch s.nextId lang) = [] :=
    filter_eq_nil_of_idsFresh hfresh
      (fun r hr => List.mem_append.mpr (Or.inl hr)) lang
  have hlong : s.longRows.filter (rowMatch s.nextId lang) = [] :=
    filter_eq_nil_of_idsFresh hfresh
      (fun r hr => List.mem_append.mpr (Or.inr hr)) lang
  rw [oneRow_iff] at hinv
  rw [oneRow_iff]
  intro t' lang'
  by_cases hm : rowMatch t' lang'
      { translatable := s.nextId, language := lang, translation := text } = true
  · obtain ⟨h1, h2⟩ := rowMatch_iff.mp hm
    simp only [] at h1 h2
    subst h1
    subst h2
    by_cases hlen : text.length ≤ ShortTranslation.MAX_LENGTH
    · rw [with_translation_short_eq hlen]
      simp only [List.filter_append, List.length_append, hshort, hlong]
      simp [rowMatch_self]
    · rw [with_translation_long_eq hlen]
      simp only [List.filter_append, List.length_append, hshort, hlong]
      simp [rowMatch_self]
  · have hrow : rowMatch t' lang'
        { translatable := s.nextId, language := lang, translation := text } = false :=
      Bool.eq_false_iff.mpr hm
    have hnew : (([(⟨s.nextId, lang, text⟩ : Row)]).filter
        (rowMatch t' lang')).length = 0 := by
      simp only [List.filter_cons, hrow, List.filter_nil, List.length_nil, if_neg]
      simp
    have hold := hinv t' lang'
    by_cases hlen : text.length ≤ ShortTranslation.MAX_LENGTH
    · rw [with_translation_short_eq hlen]
      simp only [List.filter_append, List.length_append]
      omega
    · rw [with_translation_long_eq hlen]
      simp only [List.filter_append, List.length_append]
      omega

theorem idsFresh_with_translation {s : Store} (hfresh : idsFresh s)
    (lang text : String) :
    idsFresh (Translatable.with_translation s lang text).1 := by
  intro r hr
  by_cases hlen : text.length ≤ ShortTranslation.MAX_LENGTH
  · rw [with_translation_short_eq hlen] at hr ⊢
    simp only [allRows, List.mem_append, List.mem_singleton] at hr
    rcases hr with (hshort | hnew) | hlong
    · exact Nat.lt_succ_of_lt (hfresh r (List.mem_append.mpr (Or.inl hshort)))
    · subst hnew
      exact Nat.lt_succ_self _
    · exact Nat.lt_succ_of_lt (hfresh r (List.mem_append.mpr (Or.inr hlong)))
  · rw [with_translation_long_eq hlen] at hr ⊢
    simp only [allRows, List.mem_append, List.mem_singleton] at hr
    rcases hr with hshort | hlong | hnew
    · exact Nat.lt_succ_of_lt (hfresh r (List.mem_append.mpr (Or.inl hshort)))
    · exact Nat.lt_succ_of_lt (hfresh r (List.mem_append.mpr (Or.inr hlong)))
    · subst hnew
      exact Nat.lt_succ_self _

theorem oneRow_create_empty {s : Store} (hinv : oneRow s) :
    oneRow (Translatable.create_empty s).1 := by
  exact hinv

theorem idsFresh_create_empty {s : Store} (hfresh : idsFresh s) :
    idsFresh (Translatable.create_empty s).1 := by
  unfold idsFresh allRows at hfresh ⊢
  intro r hr
  exact Nat.lt_succ_of_lt (hfresh r hr)

theorem run_preserves {s : Store} {ops : List Op} (hinv : oneRow s)
    (hfresh : idsFresh s) (hvalid : validRun s ops = true) :
    oneRow (run s ops) ∧ idsFresh (run s ops) := by
  induction ops generalizing s with
  | nil => exact ⟨hinv, hfresh⟩
  | cons op ops ih =>
      rw [validRun, Bool.and_eq_true] at hvalid
      have hstep : oneRow (applyOp s op) ∧ idsFresh (applyOp s op) := by
        cases op with
        | create_with lang text =>
            exact ⟨oneRow_with_translation hinv hfresh lang text,
              idsFresh_with_translation hfresh lang text⟩
        | create_empty =>
            exact ⟨oneRow_create_empty hinv, idsFresh_create_empty hfresh⟩
        | set t lang text =>
            have ht : t < s.nextId := by
              have := hvalid.1
              simpa [opValid] using this
            exact ⟨oneRow_set_translation hinv t lang text,
              idsFresh_set_translation hfresh ht lang text⟩
      have : run s (op :: ops) = run (applyOp s op) ops := by
        simp [run]
      rw [this]
      exact ih hstep.1 hstep.2 hvalid.2

/-! ### Idempotence machinery -/

theorem updRow_updRow (t : Nat) (lang text : String) (r : Row) :
    updRow t lang text (updRow t lang text r) = updRow t lang text r := by
  by_cases h : rowMatch t lang r = true
  · rw [updRow_of_rowMatch h, updRow_of_rowMatch (rowMatch_self t lang text)]
  · have hf : rowMatch t lang r = false := Bool.eq_false_iff.mpr h
    simp [updRow, hf]

theorem map_upd_map_upd (l : List Row) (t : Nat) (lang text : String) :
    (l.map (updRow t lang text)).map (updRow t lang text) =
      l.map (updRow t lang text) := by
  rw [List.map_map]
  congr 1
  funext r
  exact updRow_updRow t lang text r

theorem set_translation_idem (s : Store) (t : Nat) (lang text : String) :
    Translatable.set_translation (Translatable.set_translation s t lang text)
        t lang text =
      Translatable.set_translation s t lang text := by
  by_cases hlen : text.length ≤ ShortTranslation.MAX_LENGTH
  · by_cases hany : s.shortRows.any (rowMatch t lang) = true
    · have h1 : Translatable.set_translation s t lang text =
          { s with shortRows := s.shortRows.map (updRow t lang text) } := by
        unfold Translatable.set_translation
        rw [if_pos hlen, if_pos hany]
      rw [h1]
      unfold Translatable.set_translation
      rw [if_pos hlen]
      rw [if_pos (by rw [any_map_upd]; exact hany)]
      rw [map_upd_map_upd]
    · have hf : s.shortRows.any (rowMatch t lang) = false :=
        Bool.eq_false_iff.mpr hany
      have h1 : Translatable.set_translation s t lang text =
          { s with
            longRows := s.longRows.filter (fun r => !(rowMatch t lang r)),
            shortRows := s.shortRows ++ [⟨t, lang, text⟩] } := by
        unfold Translatable.set_translation
        rw [if_pos hlen, if_neg hany]
      rw [h1]
      unfold Translatable.set_translation
      rw [if_pos hlen]
      have hany2 : (s.shortRows ++ [(⟨t, lang, text⟩ : Row)]).any
          (rowMatch t lang) = true := by
        rw [List.any_append]
        simp [rowMatch_self]
      rw [if_pos hany2]
      have hmap : (s.shortRows ++ [(⟨t, lang, text⟩ : Row)]).map
          (updRow t lang text) = s.shortRows ++ [⟨t, lang, text⟩] := by
        rw [List.map_append, map_upd_of_any_false text hf]
        simp [updRow_of_rowMatch (rowMatch_self t lang text)]
      rw [hmap]
  · by_cases hany : s.longRows.any (rowMatch t lang) = true
    · have h1 : Translatable.set_translation s t lang text =
          { s with longRows := s.longRows.map (updRow t lang text) } := by
        unfold Translatable.set_translation
        rw [if_neg hlen, if_pos hany]
      rw [h1]
      unfold Translatable.set_translation
      rw [if_neg hlen]
      rw [if_pos (by rw [any_map_upd]; exact hany)]
      rw [map_upd_map_upd]
    · have hf : s.longRows.any (rowMatch t lang) = false :=
        Bool.eq_false_iff.mpr hany
      have h1 : Translatable.set_translation s t lang text =
          { s with
            shortRows := s.shortRows.filter (fun r => !(rowMatch t lang r)),
            longRows := s.longRows ++ [⟨t, lang, text⟩] } := by
        unfold Translatable.set_translation
        rw [if_neg hlen, if_neg hany]
      rw [h1]
      unfold Translatable.set_translation
      rw [if_neg hlen]
      have hany2 : (s.longRows ++ [(⟨t, lang, text⟩ : Row)]).any
          (rowMatch t lang) = true := by
        rw [List.any_append]
        simp [rowMatch_self]
      rw [if_pos hany2]
      have hmap : (s.longRows ++ [(⟨t, lang, text⟩ : Row)]).map
          (updRow t lang text) = s.longRows ++ [⟨t, lang, text⟩] := by
        rw [List.map_append, map_upd_of_any_false text hf]
        simp [updRow_of_rowMatch (rowMatch_self t lang text)]
      rw [hmap]

/-! ### Facts about `truncate` and the rendering path -/

theorem truncate_of_le {s : String} {n : Nat} (h : s.length ≤ n) :
    truncate s n = s := by
  unfold truncate
  rw [if_neg (not_lt.mpr h)]

theorem truncate_of_gt {s : String} {n : Nat} (h : n < s.length) :
    truncate s n = pyTake s n ++ ".." := by
  unfold truncate
  rw [if_pos h]

theorem pyTake_length (s : String) (n : Nat) :
    (pyTake s n).length = min n s.length := by
  show (s.data.take n).length = min n s.length
  exact List.length_take n s.data

theorem str_of_get_none {s : Store} {id : Nat} (h : Translation.get s id = none) :
    Translatable.str s id = "Unused translatable." := by
  unfold Translatable.str
  rw [h]

theorem str_of_get_empty {s : Store} {id : Nat} (h : Translation.get s id = some "") :
    Translatable.str s id = "Unused translatable." := by
  unfold Translatable.str
  rw [h]
  rfl

theorem str_of_get_some {s : Store} {id : Nat} {tx : String}
    (h : Translation.get s id = some tx) (hne : tx ≠ "") :
    Translatable.str s id = truncate tx TRUNCATE_AT_LENGTH := by
  unfold Translatable.str
  rw [h]
  exact if_neg hne

theorem get_translation_of_filter_nil {s : Store} {id : Nat} {lang : String}
    (h : (allRows s).filter (rowMatch id lang) = []) :
    Translation.get_translation s id lang = none := by
  unfold Translation.get_translation
  rw [h]
  rfl

theorem mem_allRows_with_translation (s : Store) (lang text : String) :
    (⟨s.nextId, lang, text⟩ : Row) ∈
      allRows (Translatable.with_translation s lang text).1 := by
  by_cases hlen : text.length ≤ ShortTranslation.MAX_LENGTH
  · rw [with_translation_short_eq hlen]
    simp [allRows]
  · rw [with_translation_long_eq hlen]
    simp [allRows]

/-! ### The claims -/

/-- Claim C1: round-trip of the write/read pair.  For every supported
language `L`, every text `T`, and every store satisfying the one-row
invariant, `get_translation(id, L)` after `set_translation(id, L, T)` returns
exactly `T`; and after `create_with_translation('en_US', 'Hello')` on the
empty store, `get_translation(id, 'en_US')` is `'Hello'` while
`get_translation(id, 'de_de')` is absent. -/
theorem claim1_round_trip :
    (∀ (s : Store) (id : Nat) (L T : String), supported L → oneRow s →
       Translation.get_translation (Translatable.set_translation s id L T) id L =
         some T) ∧
    Translation.get_translation
        (Translatable.with_translation emptyStore "en_US" "Hello").1
        (Translatable.with_translation emptyStore "en_US" "Hello").2 "en_US" =
      some "Hello" ∧
    Translation.get_translation
        (Translatable.with_translation emptyStore "en_US" "Hello").1
        (Translatable.with_translation emptyStore "en_US" "Hello").2 "de_de" =
      none := by
  refine ⟨fun s id L T _ hinv => get_translation_set hinv, by decide, by decide⟩

/-- Witness for claim C1 at a concrete input. -/
theorem claim1_round_trip_witness :
    Translation.get_translation
        (Translatable.set_translation emptyStore 0 "en_US" "Hi") 0 "en_US" =
      some "Hi" :=
  claim1_round_trip.1 emptyStore 0 "en_US" "Hi" (by decide)
    (by intro t lang; simp [allRows, emptyStore])

/-- Claim C2: migration cleanliness.  Setting a short text and then re-setting
a long text for the same (id, L) leaves exactly one stored row for (id, L) —
the long row carrying the new text — and no short row; and symmetrically for
the long-to-short direction. -/
theorem claim2_migration :
    (∀ (s : Store) (id : Nat) (L T T2 : String), oneRow s →
       T.length ≤ ShortTranslation.MAX_LENGTH →
       ShortTranslation.MAX_LENGTH < T2.length →
       (Translatable.set_translation (Translatable.set_translation s id L T)
           id L T2).longRows.filter (rowMatch id L) =
         [⟨id, L, T2⟩] ∧
       (Translatable.set_translation (Translatable.set_translation s id L T)
           id L T2).shortRows.filter (rowMatch id L) = []) ∧
    (∀ (s : Store) (id : Nat) (L T T2 : String), oneRow s →
       ShortTranslation.MAX_LENGTH < T.length →
       T2.length ≤ ShortTranslation.MAX_LENGTH →
       (Translatable.set_translation (Translatable.set_translation s id L T)
           id L T2).shortRows.filter (rowMatch id L) =
         [⟨id, L, T2⟩] ∧
       (Translatable.set_translation (Translatable.set_translation s id L T)
           id L T2).longRows.filter (rowMatch id L) = []) := by
  constructor
  · intro s id L T T2 hinv hT hT2
    have hinv1 : oneRow (Translatable.set_translation s id L T) :=
      oneRow_set_translation hinv id L T
    exact set_translation_long_spec hinv1 hT2
  · intro s id L T T2 hinv hT hT2
    have hinv1 : oneRow (Translatable.set_translation s id L T) :=
      oneRow_set_translation hinv id L T
    exact set_translation_short_spec hinv1 hT2

set_option maxRecDepth 8192 in
/-- Witness for claim C2 at a concrete input: a 150-character translation
re-set to `'short'` leaves exactly the short row. -/
theorem claim2_migration_witness :
    (Translatable.set_translation
        (Translatable.set_translation emptyStore 0 "de_de"
          (String.mk (List.replicate 150 'x'))) 0 "de_de"
        "short").shortRows.filter (rowMatch 0 "de_de") =
      [⟨0, "de_de", "short"⟩] ∧
    (Translatable.set_translation
        (Translatable.set_translation emptyStore 0 "de_de"
          (String.mk (List.replicate 150 'x'))) 0 "de_de"
        "short").longRows.filter (rowMatch 0 "de_de") = [] :=
  claim2_migration.2 emptyStore 0 "de_de" (String.mk (List.replicate 150 'x'))
    "short" (by intro t lang; simp [allRows, emptyStore]) (by decide) (by decide)

/-- Claim C3: the one-row invariant is preserved by every sequence of
`create_with_translation`, `create_empty` and `set_translation` calls,
starting from any invariant-satisfying store whose stored rows reference
already-allocated keys, with `set_translation` invoked on an existing
translatable (both side conditions hold in the source: rows carry a foreign
key to a saved `Translatable` and `set_translation` is an instance method). -/
theorem claim3_one_row_invariant :
    ∀ (s : Store) (ops : List Op), oneRow s → idsFresh s →
      validRun s ops = true → oneRow (run s ops) :=
  fun _ _ hinv hfresh hvalid => (run_preserves hinv hfresh hvalid).1

/-- Witness for claim C3 on a concrete call sequence. -/
theorem claim3_one_row_invariant_witness :
    ((allRows (run emptyStore
        [Op.create_with "en_US" "Hello", Op.set 0 "de_de" "Hallo",
         Op.create_empty, Op.set 0 "de_de" "Servus"])).filter
      (rowMatch 0 "de_de")).length ≤ 1 :=
  claim3_one_row_invariant emptyStore
    [Op.create_with "en_US" "Hello", Op.set 0 "de_de" "Hallo",
     Op.create_empty, Op.set 0 "de_de" "Servus"]
    (by intro t lang; simp [allRows, emptyStore])
    (by intro r hr; simp [allRows, emptyStore] at hr)
    (by decide) 0 "de_de"

/-- Claim C4 counterexample: the entry points perform no language check.  The
code `'xx_XX'` is not supported, yet `set_translation` mutates the store and
stores the text under it, and `with_translation` creates a row for it. -/
theorem claim4_counterexample :
    ¬ supported "xx_XX" ∧
    Translatable.set_translation emptyStore 0 "xx_XX" "hi" ≠ emptyStore ∧
    Translation.get_translation
        (Translatable.set_translation emptyStore 0 "xx_XX" "hi") 0 "xx_XX" =
      some "hi" ∧
    (Translatable.with_translation emptyStore "xx_XX" "Hallo").1.shortRows =
      [⟨0, "xx_XX", "Hallo"⟩] := by
  refine ⟨by decide, by decide, by decide, by decide⟩

/-- Claim C4 as amended: the write/create entry points validate nothing and
raise nothing — they mutate the store uniformly for every language code,
supported or not: `set_translation` stores the text under any code (round-trip
holds with no language restriction), and `with_translation` always inserts a
row for the requested code. -/
theorem claim4_no_validation :
    (∀ (s : Store) (id : Nat) (lang text : String), oneRow s →
       Translation.get_translation (Translatable.set_translation s id lang text)
           id lang =
         some text) ∧
    (∀ (s : Store) (lang text : String),
       (⟨s.nextId, lang, text⟩ : Row) ∈
         allRows (Translatable.with_translation s lang text).1) :=
  ⟨fun _ _ _ _ hinv => get_translation_set hinv, mem_allRows_with_translation⟩

/-- Witness for claim C4's amended statement with the unsupported code
`'xx_XX'`. -/
theorem claim4_no_validation_witness :
    Translation.get_translation
        (Translatable.set_translation emptyStore 0 "xx_XX" "hi") 0 "xx_XX" =
      some "hi" :=
  claim4_no_validation.1 emptyStore 0 "xx_XX" "hi"
    (by intro t lang; simp [allRows, emptyStore])

/-- Claim C5: `set_translation` is idempotent — calling it twice in immediate
succession with the same arguments leaves the store exactly as one call does,
for every store and every supported language. -/
theorem claim5_idempotent :
    ∀ (s : Store) (id : Nat) (L T : String), supported L →
      Translatable.set_translation (Translatable.set_translation s id L T)
          id L T =
        Translatable.set_translation s id L T :=
  fun s id L T _ => set_translation_idem s id L T

/-- Witness for claim C5 at a concrete input. -/
theorem claim5_idempotent_witness :
    Translatable.set_translation
        (Translatable.set_translation emptyStore 0 "de_de" "Hallo")
        0 "de_de" "Hallo" =
      Translatable.set_translation emptyStore 0 "de_de" "Hallo" :=
  claim5_idempotent emptyStore 0 "de_de" "Hallo" (by decide)

/-- Claim C6: no cross-language fallback.  When a translatable has no stored
row in the preferred language (`de_de`), the preferred-language lookup
returns absent — concretely even when an `en_US` translation exists. -/
theorem claim6_no_fallback :
    (∀ (s : Store) (id : Nat),
       (allRows s).filter (rowMatch id LOCALE) = [] →
       Translation.get s id = none) ∧
    Translation.get (Translatable.with_translation emptyStore "en_US" "Hello").1
        0 =
      none ∧
    Translation.get_translation
        (Translatable.with_translation emptyStore "en_US" "Hello").1 0 "en_US" =
      some "Hello" :=
  ⟨fun _ _ h => get_translation_of_filter_nil h, by decide, by decide⟩

/-- Witness for claim C6 at a concrete store populated only in `en_US`. -/
theorem claim6_no_fallback_witness :
    Translation.get
        { nextId := 1, shortRows := [⟨0, "en_US", "Hello"⟩], longRows := [] } 0 =
      none :=
  claim6_no_fallback.1
    { nextId := 1, shortRows := [⟨0, "en_US", "Hello"⟩], longRows := [] } 0
    (by decide)

/-- Claim C7 counterexample: a stored empty-string translation in the
preferred language exists, yet `__str__` does not return the stored text
(truncated); it returns the sentinel, whose exact text is
`'Unused translatable.'`, not the claim's `'unused translatable'`. -/
theorem claim7_counterexample :
    Translation.get
        { nextId := 1, shortRows := [⟨0, "de_de", ""⟩], longRows := [] } 0 =
      some "" ∧
    Translatable.str
        { nextId := 1, shortRows := [⟨0, "de_de", ""⟩], longRows := [] } 0 ≠
      truncate "" TRUNCATE_AT_LENGTH ∧
    Translatable.str
        { nextId := 1, shortRows := [⟨0, "de_de", ""⟩], longRows := [] } 0 =
      "Unused translatable." ∧
    Translatable.str
        { nextId := 1, shortRows := [⟨0, "de_de", ""⟩], longRows := [] } 0 ≠
      "unused translatable" := by
  refine ⟨by decide, by decide, by decide, by decide⟩

/-- Claim C7 as amended: `__str__` returns the sentinel
`'Unused translatable.'` when the preferred-language translation is absent or
is the stored empty string; when a non-empty one exists it returns the stored
text passed through `truncate` at width 60; in particular a 70-character
preferred-language text renders as its first 60 characters followed by the
two-character ellipsis marker. -/
theorem claim7_render :
    (∀ (s : Store) (id : Nat), Translation.get s id = none →
       Translatable.str s id = "Unused translatable.") ∧
    (∀ (s : Store) (id : Nat) (tx : String), Translation.get s id = some tx →
       tx ≠ "" → Translatable.str s id = truncate tx TRUNCATE_AT_LENGTH) ∧
    (∀ tx : String, tx.length = 70 →
       truncate tx TRUNCATE_AT_LENGTH = pyTake tx TRUNCATE_AT_LENGTH ++ "..") :=
  ⟨fun _ _ h => str_of_get_none h,
   fun _ _ _ h hne => str_of_get_some h hne,
   fun _ h => truncate_of_gt (by rw [h]; decide)⟩

/-- Witness for claim C7's amended statement: the absent case on the empty
store, and the 70-character case on a concrete string. -/
theorem claim7_render_witness :
    Translatable.str emptyStore 0 = "Unused translatable." ∧
    truncate (String.mk (List.replicate 70 'x')) TRUNCATE_AT_LENGTH =
      pyTake (String.mk (List.replicate 70 'x')) TRUNCATE_AT_LENGTH ++ ".." :=
  ⟨claim7_render.1 emptyStore 0 (by decide),
   claim7_render.2.2 (String.mk (List.replicate 70 'x')) (by decide)⟩

/-- Claim C8: the editing workflow creates the translatable with
`with_translation` on first creation, but on edits it tests the string
`'content'` against `form.changed_data`, and `'content'` is not a field of
the admin form (it is excluded), so `set_translation` is never invoked on an
edit — even when the submitted `orig_content` text changed. -/
theorem claim8_save_model :
    (∀ (cd : List String) (lang txt : String),
       (∀ x ∈ cd, x ∈ statementFormFields) →
       save_model true cd lang txt = SaveAction.noCall) ∧
    save_model true ["orig_content"] "de_de" "edited" = SaveAction.noCall ∧
    (∀ lang txt : String,
       save_model false [] lang txt = SaveAction.createWith lang txt) := by
  refine ⟨?_, by decide, fun lang txt => rfl⟩
  intro cd lang txt hsub
  have hc : cd.contains "content" = false := by
    cases hcc : cd.contains "content" with
    | false => rfl
    | true =>
        have hmem : "content" ∈ cd := List.elem_iff.mp hcc
        exact absurd (hsub "content" hmem) (by decide)
  have hcond : ¬ (cd.contains "content" = true) := by
    rw [hc]
    exact Bool.false_ne_true
  unfold save_model
  rw [if_neg (by decide : ¬ ((!true) = true)), if_neg hcond]

/-- Witness for claim C8: an edit whose only changed form field is
`orig_content` triggers no `set_translation` call. -/
theorem claim8_save_model_witness :
    save_model true ["orig_content"] "de_de" "new wording" = SaveAction.noCall :=
  claim8_save_model.1 ["orig_content"] "de_de" "new wording" (by decide)

/-- Claim C9: when the stored preferred-language text is the empty string,
`__str__` returns the sentinel `'Unused translatable.'` instead of the empty
text, because the rendering path tests the looked-up text for truthiness. -/
theorem claim9_empty_string :
    ∀ (s : Store) (id : Nat), Translation.get s id = some "" →
      Translatable.str s id = "Unused translatable." :=
  fun _ _ h => str_of_get_empty h

/-- Witness for claim C9 at a concrete store. -/
theorem claim9_empty_string_witness :
    Translatable.str
        { nextId := 1, shortRows := [⟨0, "de_de", ""⟩], longRows := [] } 0 =
      "Unused translatable." :=
  claim9_empty_string
    { nextId := 1, shortRows := [⟨0, "de_de", ""⟩], longRows := [] } 0
    (by decide)

/-- Claim C10: boundary behaviour of truncation.  Strings of length at most
60 pass through `truncate` unchanged; the two-character ellipsis marker is
appended, after the first 60 characters, only for strings strictly longer
than 60; consequently every truncated text has length at most 62. -/
theorem claim10_truncate_boundary :
    (∀ s : String, s.length ≤ TRUNCATE_AT_LENGTH →
       truncate s TRUNCATE_AT_LENGTH = s) ∧
    (∀ s : String, TRUNCATE_AT_LENGTH < s.length →
       truncate s TRUNCATE_AT_LENGTH = pyTake s TRUNCATE_AT_LENGTH ++ "..") ∧
    (∀ s : String, (truncate s TRUNCATE_AT_LENGTH).length ≤ 62) := by
  refine ⟨fun s h => truncate_of_le h, fun s h => truncate_of_gt h, fun s => ?_⟩
  by_cases h : s.length ≤ TRUNCATE_AT_LENGTH
  · rw [truncate_of_le h]
    have : TRUNCATE_AT_LENGTH = 60 := rfl
    omega
  · rw [truncate_of_gt (not_le.mp h)]
    rw [String.length_append, pyTake_length]
    have h1 : TRUNCATE_AT_LENGTH = 60 := rfl
    have h2 : (".." : String).length = 2 := rfl
    omega

/-- Witness for claim C10 at concrete strings on both sides of the
boundary. -/
theorem claim10_truncate_boundary_witness :
    truncate "Hello" TRUNCATE_AT_LENGTH = "Hello" ∧
    truncate (String.mk (List.replicate 61 'y')) TRUNCATE_AT_LENGTH =
      pyTake (String.mk (List.replicate 61 'y')) TRUNCATE_AT_LENGTH ++ ".." :=
  ⟨claim10_truncate_boundary.1 "Hello" (by decide),
   claim10_truncate_boundary.2.1 (String.mk (List.replicate 61 'y')) (by decide)⟩

end StatementDb
